import Mathlib

/-!
Shallow embedding of the Topcoder data-access layer (tc-dal), file
src/services/DynamoDbService.js.  The service exposes six operations over
tables kept in a models mapping: search, getById, validateDuplicate, create,
update and delete.  The embedding renders JavaScript values as the inductive
type JVal (strings and arrays, the value shapes the API uses), records as
association lists from attribute name to value, and the database behind the
models mapping as an association list from table name to table.  A backend
call that fails is modelled by an explicit parameter of type Option BErr:
none means the call succeeds against the database state, some e means the
underlying SDK call reports the error e, which the code forwards verbatim.
validateDuplicate additionally returns the list of search calls it issued,
so that statements about the absence of a database call can be made.
-/

/-- JavaScript values exchanged with the service API: strings and
possibly nested arrays. -/
inductive JVal where
  | vstr (s : String)
  | varr (a : List JVal)

mutual

/-- Decidable equality of JavaScript values. -/
def JVal.decEq : (a b : JVal) → Decidable (a = b)
  | .vstr s, .vstr t =>
      if h : s = t then .isTrue (by rw [h]) else .isFalse (by simp [h])
  | .vstr _, .varr _ => .isFalse (by simp)
  | .varr _, .vstr _ => .isFalse (by simp)
  | .varr a, .varr b =>
      match JVal.decEqList a b with
      | .isTrue h => .isTrue (by rw [h])
      | .isFalse h => .isFalse (by simp [h])

/-- Decidable equality of lists of JavaScript values. -/
def JVal.decEqList : (a b : List JVal) → Decidable (a = b)
  | [], [] => .isTrue rfl
  | [], _ :: _ => .isFalse (by simp)
  | _ :: _, [] => .isFalse (by simp)
  | x :: xs, y :: ys =>
      match JVal.decEq x y, JVal.decEqList xs ys with
      | .isTrue h1, .isTrue h2 => .isTrue (by rw [h1, h2])
      | .isFalse h1, _ => .isFalse (by simp [h1])
      | _, .isFalse h2 => .isFalse (by simp [h2])

end

instance : DecidableEq JVal := JVal.decEq

/-- Backend errors (AWS SDK or Dynamoose failures) are plain tokens. -/
abbrev BErr := String

/-- Errors a service operation can reject with: the locally raised
NotFoundError, BadRequestError and ConflictError from utils/errors, the
JavaScript TypeError produced by reading a property of undefined when the
table name is not in the models mapping, and backend errors forwarded
verbatim in the backend constructor. -/
inductive DbError where
  | notFound (msg : String)
  | badRequest (msg : String)
  | conflict (msg : String)
  | typeError
  | backend (e : BErr)
deriving DecidableEq

/-- A record (one DynamoDB item): association list from attribute name to
value.  A JavaScript object has one binding per key; lookup takes the first
binding. -/
abbrev Rec := List (String × JVal)

/-- A table: the list of items currently stored in it. -/
abbrev Table := List Rec

/-- The database state behind the models mapping: association list from
logical table name to table contents. -/
abbrev Db := List (String × Table)

/-- A search filter as built by validateDuplicate: field name paired with
the value the field must equal (dynamoose scan criteria of shape
field maps to eq value). -/
abbrev ScanOptions := List (String × JVal)

/-- The apostrophe character, used in the NotFoundError message text. -/
def apos : String := String.singleton (Char.ofNat 39)

mutual

/-- JavaScript string coercion of a value, as performed by template
literals and by object property keys: a string is itself, an array joins
the coercions of its elements with commas. -/
def jsToString : JVal → String
  | .vstr s => s
  | .varr a => jsToStringList a

/-- JavaScript Array.prototype.toString on a list of values: elements
joined by commas. -/
def jsToStringList : List JVal → String
  | [] => ""
  | [x] => jsToString x
  | x :: y :: xs => jsToString x ++ "," ++ jsToStringList (y :: xs)

end

/-- JavaScript length of a value: String.prototype.length for a string,
Array.prototype.length for an array. -/
def jsLength : JVal → Nat
  | .vstr s => s.length
  | .varr a => a.length

/-- JavaScript indexing v[i].  The code only indexes within bounds (the
arity guard in validateDuplicate ensures i is below the length), so the
out-of-range result is an arbitrary default.  For a string, indexing
yields the one-character string at that position. -/
def jsIndex : JVal → Nat → JVal
  | .vstr s, i => .vstr (String.mk ((s.data.drop i).take 1))
  | .varr a, i => a.getD i (.vstr "")

/-- JavaScript object property assignment obj[k] = v on an association
list: overwrite the existing binding for k, or append a new one. -/
def setField : List (String × JVal) → String → JVal → List (String × JVal)
  | [], k, v => [(k, v)]
  | (k', v') :: rest, k, v =>
      if k' = k then (k, v) :: rest else (k', v') :: setField rest k v

/-- The id attribute of a record, the DynamoDB hash key queried by
getById. -/
def getId (r : Rec) : Option JVal := r.lookup "id"

/-- Whether a record satisfies every equality criterion of a filter: for
each (field, v) pair the record holds value v at that field. -/
def matchesFilter (r : Rec) (f : ScanOptions) : Bool :=
  f.all fun p => r.lookup p.1 == some p.2

/-- DynamoDB put semantics used by dbItem.save: the item replaces any
stored item with the same hash key and is otherwise added to the table. -/
def putRecord (tbl : Table) (r : Rec) : Table :=
  tbl.filter (fun x => getId x != getId r) ++ [r]

/-- DynamoDB delete semantics used by dbItem.delete: remove the stored
item with the same hash key. -/
def removeRecord (tbl : Table) (r : Rec) : Table :=
  tbl.filter (fun x => getId x != getId r)

/-- Apply a put to the named table of the database state, leaving every
other entry untouched. -/
def dbPut (db : Db) (t : String) (r : Rec) : Db :=
  db.map fun e => if e.1 = t then (e.1, putRecord e.2 r) else e

/-- Apply a delete to the named table of the database state, leaving every
other entry untouched. -/
def dbDelete (db : Db) (t : String) (r : Rec) : Db :=
  db.map fun e => if e.1 = t then (e.1, removeRecord e.2 r) else e

/-- The logical table names of the database state, in order: the keys of
the models mapping. -/
def dbKeys (db : Db) : List String := db.map Prod.fst

/-- A record handle as returned by getById or create: the item together
with the table (model) it belongs to.  update and delete receive such a
handle. -/
structure DbItem where
  table : String
  attrs : Rec
deriving DecidableEq

namespace DynamoDbService

/-- DynamoDbService.search: scan the named table with the given criteria.
Reading this.models[tableName] of an unconfigured table throws a
TypeError; a failing scan rejects with the backend error unchanged; a
successful scan resolves with the matching records, where the code maps a
result of count zero to the empty array. -/
def search (db : Db) (t : String) (f : ScanOptions) (err? : Option BErr) :
    Except DbError (List Rec) :=
  match db.lookup t with
  | none => .error .typeError
  | some tbl =>
    match err? with
    | some e => .error (.backend e)
    | none =>
      let result := tbl.filter fun r => matchesFilter r f
      .ok (if result.length = 0 then [] else result)

/-- DynamoDbService.getById: query the named table by the id hash key.
A failing query rejects with the backend error unchanged; an empty result
rejects with NotFoundError naming the table and the id; otherwise the
first returned record resolves. -/
def getById (db : Db) (t : String) (id : JVal) (err? : Option BErr) :
    Except DbError Rec :=
  match db.lookup t with
  | none => .error .typeError
  | some tbl =>
    match err? with
    | some e => .error (.backend e)
    | none =>
      match tbl.filter (fun r => r.lookup "id" == some id) with
      | r :: _ => .ok r
      | [] =>
          .error (.notFound
            (t ++ " with id: " ++ jsToString id ++ " doesn" ++ apos
              ++ "t exist"))

/-- The BadRequestError message of validateDuplicate for mismatched
lengths, built by the template literal from both arguments. -/
def badRequestMsg (keys values : JVal) : String :=
  "size of " ++ jsToString keys ++ " and " ++ jsToString values
    ++ " do not match."

/-- One key and value pair as rendered inside the ConflictError
messages. -/
def pairStr (k v : JVal) : String := jsToString k ++ ": " ++ jsToString v

/-- The ConflictError message of the array branch of validateDuplicate:
the for-in loop over the indices of keys appends each pair and a comma
separator for every index but the last. -/
def conflictStrArr (t : String) (ks : List JVal) (values : JVal) : String :=
  (List.range ks.length).foldl
    (fun s i =>
      s ++ (pairStr (ks.getD i (.vstr "")) (jsIndex values i)
        ++ (if i < ks.length - 1 then ", " else "")))
    (t ++ " with [ ")
  ++ " ] already exists"

/-- The ConflictError message of the scalar branch of
validateDuplicate. -/
def conflictStrScalar (t : String) (keys values : JVal) : String :=
  t ++ " with " ++ jsToString keys ++ ": " ++ jsToString values
    ++ " already exists"

/-- The search criteria built by the array branch of validateDuplicate:
keys.forEach assigns options[key] = eq values[index] for each index. -/
def buildOptions (ks : List JVal) (values : JVal) : ScanOptions :=
  (List.range ks.length).foldl
    (fun acc i => setField acc (jsToString (ks.getD i (.vstr ""))) (jsIndex values i))
    []

/-- DynamoDbService.validateDuplicate: when keys is an array, first check
that its length equals the length of values and throw BadRequestError
otherwise, then build one equality criterion per key; when keys is a
scalar, pair it with the entire values argument as a single criterion.
Then call this.search; a non-empty result throws ConflictError with the
branch-specific message, an empty result returns undefined.  The second
component records the search calls issued, in order. -/
def validateDuplicate (db : Db) (t : String) (keys values : JVal)
    (err? : Option BErr) :
    Except DbError Unit × List (String × ScanOptions) :=
  match keys with
  | .varr ks =>
      if ks.length ≠ jsLength values then
        (.error (.badRequest (badRequestMsg (.varr ks) values)), [])
      else
        let opts := buildOptions ks values
        match search db t opts err? with
        | .error e => (.error e, [(t, opts)])
        | .ok records =>
            if records.length > 0 then
              (.error (.conflict (conflictStrArr t ks values)), [(t, opts)])
            else
              (.ok (), [(t, opts)])
  | .vstr k =>
      let opts : ScanOptions := [(k, values)]
      match search db t opts err? with
      | .error e => (.error e, [(t, opts)])
      | .ok records =>
          if records.length > 0 then
            (.error (.conflict (conflictStrScalar t (.vstr k) values)),
              [(t, opts)])
          else
            (.ok (), [(t, opts)])

/-- DynamoDbService.create: instantiate the model of the named table with
the given data (TypeError when the table is unconfigured) and save it.  A
failing save rejects with the backend error unchanged; a successful save
resolves with the created item, the table now containing it. -/
def create (db : Db) (t : String) (data : Rec) (err? : Option BErr) :
    Except DbError (Db × DbItem) :=
  match db.lookup t with
  | none => .error .typeError
  | some _ =>
    match err? with
    | some e => .error (.backend e)
    | none => .ok (dbPut db t data, ⟨t, data⟩)

/-- Overwrite the fields named in data on a record, in order:
Object.keys(data).forEach assigns dbItem[key] = data[key]. -/
def applyData (attrs : Rec) (data : Rec) : Rec :=
  data.foldl (fun a p => setField a p.1 p.2) attrs

/-- DynamoDbService.update: first overwrite the fields of the in-memory
item with the given data, then save it.  The first component is the item
handle after the field assignments, which happen before and independently
of the save; the second is the promise outcome: the backend error
unchanged on a failing save, otherwise the updated item with the table
now holding it. -/
def update (db : Db) (item : DbItem) (data : Rec) (err? : Option BErr) :
    DbItem × Except DbError (Db × DbItem) :=
  let item' : DbItem := ⟨item.table, applyData item.attrs data⟩
  match err? with
  | some e => (item', .error (.backend e))
  | none => (item', .ok (dbPut db item'.table item'.attrs, item'))

/-- DynamoDbService.delete: call dbItem.delete.  A failing delete rejects
with the backend error unchanged; a successful delete resolves with the
same item handle, the item removed from its table. -/
def delete (db : Db) (item : DbItem) (err? : Option BErr) :
    Except DbError (Db × DbItem) :=
  match err? with
  | some e => .error (.backend e)
  | none => .ok (dbDelete db item.table item.attrs, item)

end DynamoDbService

/-- A sample record in the shape of the Country entity of the repository
documentation, used to instantiate the theorems at concrete inputs. -/
def recCanada : Rec :=
  [("id", JVal.vstr "1"), ("name", JVal.vstr "Canada"),
   ("countryCode", JVal.vstr "CAN")]

/-- A sample database state with one configured table holding one
record. -/
def db0 : Db := [("countries", [recCanada])]

/-- The sample record as a handle bound to its table. -/
def itemCanada : DbItem := ⟨"countries", recCanada⟩

open DynamoDbService

section Lemmas

/-- Folding string appends from any initial string equals the initial
string followed by the fold from the empty string. -/
theorem foldl_append_shift {α : Type} (g : α → String) (l : List α)
    (init : String) :
    l.foldl (fun s a => s ++ g a) init
      = init ++ l.foldl (fun s a => s ++ g a) "" := by
  induction l generalizing init with
  | nil => simp
  | cons x xs ih =>
      simp only [List.foldl_cons, String.empty_append]
      rw [ih (init ++ g x), ih (g x), String.append_assoc]

/-- Each list element contributes its rendering as a factor of the folded
string. -/
theorem foldl_append_occurs {α : Type} (g : α → String) :
    ∀ (l : List α) (init : String) (a : α), a ∈ l →
      ∃ pre post, l.foldl (fun s x => s ++ g x) init = pre ++ g a ++ post := by
  intro l
  induction l with
  | nil => intro _ a ha; cases ha
  | cons x xs ih =>
      intro init a ha
      rcases List.mem_cons.mp ha with h | h
      · subst h
        refine ⟨init, xs.foldl (fun s y => s ++ g y) "", ?_⟩
        simp only [List.foldl_cons]
        exact foldl_append_shift g xs (init ++ g a)
      · exact ih (init ++ g x) a h

/-- Assigning a field makes it hold the assigned value. -/
theorem lookup_setField_self (a : List (String × JVal)) (k : String)
    (v : JVal) : (setField a k v).lookup k = some v := by
  induction a with
  | nil => simp [setField, List.lookup]
  | cons p rest ih =>
      obtain ⟨k', v'⟩ := p
      by_cases h : k' = k
      · subst h
        simp [setField, List.lookup]
      · have hb : (k == k') = false :=
          beq_eq_false_iff_ne.mpr fun hh => h hh.symm
        simp [setField, if_neg h, List.lookup, hb, ih]

/-- Assigning a field leaves every other field unchanged. -/
theorem lookup_setField_ne (a : List (String × JVal)) (k k' : String)
    (v : JVal) (h : k' ≠ k) :
    (setField a k v).lookup k' = a.lookup k' := by
  have hb : (k' == k) = false := beq_eq_false_iff_ne.mpr h
  induction a with
  | nil => simp [setField, List.lookup, hb]
  | cons p rest ih =>
      obtain ⟨k1, v1⟩ := p
      by_cases hk : k1 = k
      · subst hk
        simp [setField, List.lookup, hb]
      · simp only [setField, if_neg hk]
        cases hq : (k' == k1) <;> simp [List.lookup, hq, ih]

/-- Unfolding one assignment of applyData. -/
theorem applyData_cons (attrs : Rec) (p : String × JVal) (data : Rec) :
    applyData attrs (p :: data) = applyData (setField attrs p.1 p.2) data := rfl

/-- Overwriting fields not named f leaves the lookup of f unchanged. -/
theorem lookup_applyData_notin (data : Rec) (f : String)
    (h : ∀ p ∈ data, p.1 ≠ f) :
    ∀ attrs : Rec, (applyData attrs data).lookup f = attrs.lookup f := by
  induction data with
  | nil => intro attrs; rfl
  | cons p rest ih =>
      intro attrs
      rw [applyData_cons,
        ih (fun q hq => h q (List.mem_cons_of_mem p hq))]
      exact lookup_setField_ne attrs p.1 f p.2
        fun hh => h p (List.mem_cons_self p rest) hh.symm

/-- A field named in a duplicate-free data object holds the assigned
value after applyData. -/
theorem lookup_applyData_mem (data : Rec) (f : String) (v : JVal)
    (hnd : (data.map Prod.fst).Nodup) (hmem : (f, v) ∈ data) :
    ∀ attrs : Rec, (applyData attrs data).lookup f = some v := by
  induction data with
  | nil => cases hmem
  | cons p rest ih =>
      intro attrs
      have hnd1 : (p.1 :: rest.map Prod.fst).Nodup := by simpa using hnd
      have hnd2 := List.nodup_cons.mp hnd1
      rcases List.mem_cons.mp hmem with h | h
      · rw [applyData_cons]
        have hnot : ∀ q ∈ rest, q.1 ≠ f := by
          intro q hq heq
          apply hnd2.1
          have hf : p.1 = f := by rw [← h]
          rw [hf, ← heq]
          exact List.mem_map_of_mem Prod.fst hq
        rw [lookup_applyData_notin rest f hnot]
        have hp1 : p.1 = f := by rw [← h]
        have hp2 : p.2 = v := by rw [← h]
        rw [hp1, hp2]
        exact lookup_setField_self attrs f v
      · rw [applyData_cons]
        exact ih hnd2.2 h (setField attrs p.1 p.2)

/-- A put addressed to an existing table rewrites exactly that table in
the database state. -/
theorem lookup_dbPut_self (db : Db) (t : String) (r : Rec) (tbl : Table)
    (h : db.lookup t = some tbl) :
    (dbPut db t r).lookup t = some (putRecord tbl r) := by
  induction db with
  | nil => simp [List.lookup] at h
  | cons e rest ih =>
      obtain ⟨t1, tb⟩ := e
      by_cases ht : t1 = t
      · subst ht
        have h2 : tb = tbl := by simpa [List.lookup] using h
        subst h2
        show List.lookup t1
            (((fun e => if e.1 = t1 then (e.1, putRecord e.2 r) else e)
              ((t1, tb) : String × Table)) :: dbPut rest t1 r)
          = some (putRecord tb r)
        rw [show ((fun e => if e.1 = t1 then (e.1, putRecord e.2 r) else e)
              ((t1, tb) : String × Table)) = (t1, putRecord tb r) from by simp]
        simp [List.lookup]
      · have hb : (t == t1) = false :=
          beq_eq_false_iff_ne.mpr fun hh => ht hh.symm
        simp only [List.lookup, hb] at h
        have ih2 := ih h
        simp only [dbPut, List.map_cons, if_neg ht]
        simpa [List.lookup, hb, dbPut] using ih2

/-- A delete addressed to an existing table rewrites exactly that table
in the database state. -/
theorem lookup_dbDelete_self (db : Db) (t : String) (r : Rec) (tbl : Table)
    (h : db.lookup t = some tbl) :
    (dbDelete db t r).lookup t = some (removeRecord tbl r) := by
  induction db with
  | nil => simp [List.lookup] at h
  | cons e rest ih =>
      obtain ⟨t1, tb⟩ := e
      by_cases ht : t1 = t
      · subst ht
        have h2 : tb = tbl := by simpa [List.lookup] using h
        subst h2
        show List.lookup t1
            (((fun e => if e.1 = t1 then (e.1, removeRecord e.2 r) else e)
              ((t1, tb) : String × Table)) :: dbDelete rest t1 r)
          = some (removeRecord tb r)
        rw [show ((fun e => if e.1 = t1 then (e.1, removeRecord e.2 r) else e)
              ((t1, tb) : String × Table)) = (t1, removeRecord tb r) from by simp]
        simp [List.lookup]
      · have hb : (t == t1) = false :=
          beq_eq_false_iff_ne.mpr fun hh => ht hh.symm
        simp only [List.lookup, hb] at h
        have ih2 := ih h
        simp only [dbDelete, List.map_cons, if_neg ht]
        simpa [List.lookup, hb, dbDelete] using ih2

/-- A put never changes the key list of the database state. -/
theorem dbKeys_dbPut (db : Db) (t : String) (r : Rec) :
    dbKeys (dbPut db t r) = dbKeys db := by
  induction db with
  | nil => rfl
  | cons e rest ih =>
      obtain ⟨t1, tb⟩ := e
      by_cases ht : t1 = t <;>
        simpa [dbKeys, dbPut, ht] using ih

/-- A delete never changes the key list of the database state. -/
theorem dbKeys_dbDelete (db : Db) (t : String) (r : Rec) :
    dbKeys (dbDelete db t r) = dbKeys db := by
  induction db with
  | nil => rfl
  | cons e rest ih =>
      obtain ⟨t1, tb⟩ := e
      by_cases ht : t1 = t <;>
        simpa [dbKeys, dbDelete, ht] using ih

/-- After a put, querying the saved id returns exactly the saved item. -/
theorem filter_putRecord_id (tbl : Table) (r : Rec) (idv : JVal)
    (hid : getId r = some idv) :
    (putRecord tbl r).filter (fun x => x.lookup "id" == some idv) = [r] := by
  unfold putRecord
  rw [List.filter_append]
  have h1 : (tbl.filter fun x => getId x != getId r).filter
      (fun x => x.lookup "id" == some idv) = [] := by
    rw [List.filter_eq_nil_iff]
    intro x hx
    have hne := (List.mem_filter.mp hx).2
    rw [hid, bne_iff_ne] at hne
    simp only [ne_eq] at hne
    simpa [getId] using fun hc => hne (by simpa [getId] using hc)
  rw [h1]
  have h2 : ([r] : Table).filter (fun x => x.lookup "id" == some idv) = [r] := by
    have : (r.lookup "id" == some idv) = true := by
      simpa [getId] using hid
    simp [List.filter, this]
  rw [h2]
  rfl

/-- After a delete, querying the removed id returns nothing. -/
theorem filter_removeRecord_id (tbl : Table) (r : Rec) (idv : JVal)
    (hid : getId r = some idv) :
    (removeRecord tbl r).filter (fun x => x.lookup "id" == some idv) = [] := by
  unfold removeRecord
  rw [List.filter_eq_nil_iff]
  intro x hx
  have hne := (List.mem_filter.mp hx).2
  rw [hid, bne_iff_ne] at hne
  simp only [ne_eq] at hne
  simpa [getId] using fun hc => hne (by simpa [getId] using hc)

/-- getById finds the item a put just saved. -/
theorem getById_after_put (db : Db) (t : String) (r : Rec) (idv : JVal)
    (tbl : Table) (htbl : db.lookup t = some tbl)
    (hid : getId r = some idv) :
    getById (dbPut db t r) t idv none = .ok r := by
  have h1 := lookup_dbPut_self db t r tbl htbl
  have h2 := filter_putRecord_id tbl r idv hid
  simp only [getById, h1, h2]

/-- getById raises NotFoundError for the id a delete just removed. -/
theorem getById_after_delete (db : Db) (t : String) (r : Rec) (idv : JVal)
    (tbl : Table) (htbl : db.lookup t = some tbl)
    (hid : getId r = some idv) :
    getById (dbDelete db t r) t idv none =
      .error (.notFound
        (t ++ " with id: " ++ jsToString idv ++ " doesn" ++ apos
          ++ "t exist")) := by
  have h1 := lookup_dbDelete_self db t r tbl htbl
  have h2 := filter_removeRecord_id tbl r idv hid
  simp only [getById, h1, h2]

/-- search never produces a BadRequestError. -/
theorem search_ne_badRequest (db : Db) (t : String) (f : ScanOptions)
    (err? : Option BErr) (m : String) :
    search db t f err? ≠ .error (.badRequest m) := by
  unfold search
  cases hdb : db.lookup t <;> cases err? <;> simp

end Lemmas

/-- C1: for every database state, table name, backend behaviour, and every
pair of key/value arrays of different lengths, validateDuplicate rejects
with BadRequestError and the list of issued search calls is empty: the
error is raised before any database call. -/
theorem C1_validateDuplicate_arity_badRequest_before_search
    (db : Db) (t : String) (ks vs : List JVal) (err? : Option BErr)
    (h : ks.length ≠ vs.length) :
    validateDuplicate db t (.varr ks) (.varr vs) err? =
      (.error (.badRequest (badRequestMsg (.varr ks) (.varr vs))), []) := by
  have h2 : ks.length ≠ jsLength (JVal.varr vs) := by
    simpa [jsLength] using h
  simp only [validateDuplicate]
  rw [if_pos h2]

/-- Witness for C1 at a concrete mismatched pair of arrays. -/
theorem C1_witness :
    validateDuplicate db0 "countries" (.varr [.vstr "name"]) (.varr [])
        none =
      (.error (.badRequest (badRequestMsg (.varr [.vstr "name"])
        (.varr []))), []) :=
  C1_validateDuplicate_arity_badRequest_before_search db0 "countries"
    [.vstr "name"] [] none (by decide)

/-- C3: for every configured table and every id no stored record carries,
getById rejects with NotFoundError whose message names the table and the
id. -/
theorem C3_getById_notFound (db : Db) (t : String) (id : JVal)
    (tbl : Table) (htbl : db.lookup t = some tbl)
    (hnone : ∀ r ∈ tbl, r.lookup "id" ≠ some id) :
    getById db t id none =
      .error (.notFound
        (t ++ " with id: " ++ jsToString id ++ " doesn" ++ apos
          ++ "t exist")) := by
  have hfil : tbl.filter (fun r => r.lookup "id" == some id) = [] := by
    rw [List.filter_eq_nil_iff]
    intro x hx
    simpa using hnone x hx
  simp only [getById, htbl, hfil]

/-- Witness for C3 at a concrete database and absent id. -/
theorem C3_witness :
    getById db0 "countries" (.vstr "2") none =
      .error (.notFound
        ("countries" ++ " with id: " ++ jsToString (.vstr "2") ++ " doesn"
          ++ apos ++ "t exist")) :=
  C3_getById_notFound db0 "countries" (.vstr "2") [recCanada] rfl
    (by decide)

/-- C4: for every configured table and filter, a successful scan matching
no stored record resolves with the empty list. -/
theorem C4_search_empty_result (db : Db) (t : String) (f : ScanOptions)
    (tbl : Table) (htbl : db.lookup t = some tbl)
    (hnone : ∀ r ∈ tbl, matchesFilter r f = false) :
    search db t f none = .ok [] := by
  have hfil : tbl.filter (fun r => matchesFilter r f) = [] := by
    rw [List.filter_eq_nil_iff]
    intro x hx
    simp [hnone x hx]
  simp only [search, htbl, hfil]
  rfl

/-- Witness for C4 at a concrete database and non-matching filter. -/
theorem C4_witness :
    search db0 "countries" [("name", JVal.vstr "France")] none = .ok [] :=
  C4_search_empty_result db0 "countries" [("name", JVal.vstr "France")]
    [recCanada] rfl (by decide)

/-- C6: deleting a previously retrieved record resolves with the same
handle, and getById on the table and id of the record afterwards rejects
NotFoundError. -/
theorem C6_delete_then_getById_notFound (db : Db) (item : DbItem)
    (tbl : Table) (idv : JVal)
    (htbl : db.lookup item.table = some tbl)
    (hid : getId item.attrs = some idv) :
    ∃ db2,
      DynamoDbService.delete db item none = .ok (db2, item) ∧
      getById db2 item.table idv none =
        .error (.notFound
          (item.table ++ " with id: " ++ jsToString idv ++ " doesn"
            ++ apos ++ "t exist")) := by
  refine ⟨dbDelete db item.table item.attrs, rfl, ?_⟩
  exact getById_after_delete db item.table item.attrs idv tbl htbl hid

/-- Witness for C6 at the concrete sample record. -/
theorem C6_witness :
    ∃ db2,
      DynamoDbService.delete db0 itemCanada none = .ok (db2, itemCanada) ∧
      getById db2 itemCanada.table (.vstr "1") none =
        .error (.notFound
          (itemCanada.table ++ " with id: " ++ jsToString (.vstr "1")
            ++ " doesn" ++ apos ++ "t exist")) :=
  C6_delete_then_getById_notFound db0 itemCanada [recCanada] (.vstr "1")
    rfl rfl

/-- C10: update overwrites the in-memory handle before attempting the
save, so on a failing save it rejects with the backend error while the
returned handle already carries every value the data object assigns. -/
theorem C10_update_mutates_handle_before_failed_save
    (db : Db) (item : DbItem) (data : Rec) (e : BErr) :
    DynamoDbService.update db item data (some e) =
      (⟨item.table, applyData item.attrs data⟩, .error (.backend e)) ∧
    ∀ f v, (f, v) ∈ data → (data.map Prod.fst).Nodup →
      ((DynamoDbService.update db item data (some e)).1).attrs.lookup f
        = some v := by
  refine ⟨rfl, ?_⟩
  intro f v hmem hnd
  exact lookup_applyData_mem data f v hnd hmem item.attrs

/-- Witness for C10 at the concrete sample record and a failing save. -/
theorem C10_witness :
    DynamoDbService.update db0 itemCanada
        [("countryCode", JVal.vstr "CA")] (some "boom") =
      (⟨itemCanada.table,
        applyData itemCanada.attrs [("countryCode", JVal.vstr "CA")]⟩,
       .error (.backend "boom")) ∧
    ((DynamoDbService.update db0 itemCanada
        [("countryCode", JVal.vstr "CA")] (some "boom")).1).attrs.lookup
          "countryCode" = some (JVal.vstr "CA") := by
  have h := C10_update_mutates_handle_before_failed_save db0 itemCanada
    [("countryCode", JVal.vstr "CA")] "boom"
  exact ⟨h.1, h.2 "countryCode" (JVal.vstr "CA") (by decide) (by decide)⟩

/-- C7: on every configured table, every operation confronted with a
failing backend call rejects with exactly that backend error, unchanged
and unwrapped; the only locally produced errors are the NotFound,
BadRequest and Conflict cases covered by the other claims. -/
theorem C7_backend_errors_surface_verbatim (db : Db) (t : String)
    (f : ScanOptions) (id : JVal) (ks : List JVal) (k : String)
    (values : JVal) (data : Rec) (item : DbItem) (tbl : Table) (e : BErr)
    (htbl : db.lookup t = some tbl)
    (hlen : ks.length = jsLength values) :
    search db t f (some e) = .error (.backend e) ∧
    getById db t id (some e) = .error (.backend e) ∧
    (validateDuplicate db t (.varr ks) values (some e)).1 =
      .error (.backend e) ∧
    (validateDuplicate db t (.vstr k) values (some e)).1 =
      .error (.backend e) ∧
    create db t data (some e) = .error (.backend e) ∧
    (DynamoDbService.update db item data (some e)).2 =
      .error (.backend e) ∧
    DynamoDbService.delete db item (some e) = .error (.backend e) := by
  have hse : ∀ g : ScanOptions,
      search db t g (some e) = .error (.backend e) := by
    intro g
    simp only [search, htbl]
  refine ⟨hse f, ?_, ?_, ?_, ?_, rfl, rfl⟩
  · simp only [getById, htbl]
  · simp only [validateDuplicate]
    rw [if_neg (fun hc => hc hlen), hse (buildOptions ks values)]
  · simp only [validateDuplicate]
    rw [hse [(k, values)]]
  · simp only [create, htbl]

/-- Witness for C7 at concrete inputs and a concrete backend error. -/
theorem C7_witness :
    search db0 "countries" [] (some "boom") = .error (.backend "boom") ∧
    getById db0 "countries" (.vstr "1") (some "boom") =
      .error (.backend "boom") ∧
    (validateDuplicate db0 "countries" (.varr [.vstr "name"])
        (.varr [.vstr "Canada"]) (some "boom")).1 =
      .error (.backend "boom") ∧
    (validateDuplicate db0 "countries" (.vstr "name")
        (.varr [.vstr "Canada"]) (some "boom")).1 =
      .error (.backend "boom") ∧
    create db0 "countries" recCanada (some "boom") =
      .error (.backend "boom") ∧
    (DynamoDbService.update db0 itemCanada recCanada
        (some "boom")).2 = .error (.backend "boom") ∧
    DynamoDbService.delete db0 itemCanada (some "boom") =
      .error (.backend "boom") :=
  C7_backend_errors_surface_verbatim db0 "countries" [] (.vstr "1")
    [.vstr "name"] "name" (.varr [.vstr "Canada"]) recCanada itemCanada
    [recCanada] "boom" rfl (by decide)

/-- C8: the models mapping is keyed by logical table name and no
operation changes its entries: search, getById and validateDuplicate of
this embedding return no new state at all, and whenever create, update or
delete succeed, the new database state has exactly the key list of the
old one. -/
theorem C8_models_mapping_fixed (db : Db) (t : String) (data : Rec)
    (item : DbItem) (err? : Option BErr) (db2 : Db) (r1 it1 : DbItem) :
    (create db t data err? = .ok (db2, r1) → dbKeys db2 = dbKeys db) ∧
    ((DynamoDbService.update db item data err?).2 = .ok (db2, it1) →
      dbKeys db2 = dbKeys db) ∧
    (DynamoDbService.delete db item err? = .ok (db2, it1) →
      dbKeys db2 = dbKeys db) := by
  refine ⟨?_, ?_, ?_⟩
  · intro h
    unfold create at h
    cases hdb : db.lookup t with
    | none => rw [hdb] at h; simp at h
    | some tb =>
        rw [hdb] at h
        cases err? with
        | some e => simp at h
        | none =>
            simp only [Except.ok.injEq, Prod.mk.injEq] at h
            rw [← h.1]
            exact dbKeys_dbPut db t data
  · intro h
    cases err? with
    | some e => simp [DynamoDbService.update] at h
    | none =>
        simp only [DynamoDbService.update, Except.ok.injEq,
          Prod.mk.injEq] at h
        rw [← h.1]
        exact dbKeys_dbPut db item.table (applyData item.attrs data)
  · intro h
    cases err? with
    | some e => simp [DynamoDbService.delete] at h
    | none =>
        simp only [DynamoDbService.delete, Except.ok.injEq,
          Prod.mk.injEq] at h
        rw [← h.1]
        exact dbKeys_dbDelete db item.table item.attrs

/-- Witness for C8: a concrete successful create keeps the key list. -/
theorem C8_witness :
    dbKeys (dbPut db0 "countries"
      [("id", JVal.vstr "2"), ("name", JVal.vstr "France")]) =
      dbKeys db0 :=
  (C8_models_mapping_fixed db0 "countries"
      [("id", JVal.vstr "2"), ("name", JVal.vstr "France")] itemCanada
      none
      (dbPut db0 "countries"
        [("id", JVal.vstr "2"), ("name", JVal.vstr "France")])
      ⟨"countries", [("id", JVal.vstr "2"), ("name", JVal.vstr "France")]⟩
      itemCanada).1 rfl

/-- C9: with a scalar (non-array) keys argument validateDuplicate never
raises BadRequestError for any values argument, and the single search it
issues pairs the scalar key with the entire values argument as one
equality criterion. -/
theorem C9_validateDuplicate_scalar_key_no_arity_check
    (db : Db) (t : String) (k : String) (values : JVal)
    (err? : Option BErr) :
    (∀ m, (validateDuplicate db t (.vstr k) values err?).1 ≠
      .error (.badRequest m)) ∧
    (validateDuplicate db t (.vstr k) values err?).2 =
      [(t, [(k, values)])] := by
  constructor
  · intro m
    simp only [validateDuplicate]
    cases hs : search db t [(k, values)] err? with
    | error e2 =>
        intro hc
        have he : e2 = .badRequest m := by simpa using hc
        exact search_ne_badRequest db t [(k, values)] err? m (he ▸ hs)
    | ok records =>
        by_cases hl : records.length > 0 <;> simp [hl]
  · simp only [validateDuplicate]
    cases hs : search db t [(k, values)] err? with
    | error e2 => rfl
    | ok records =>
        by_cases hl : records.length > 0 <;> simp [hl]

/-- Witness for C9 at a concrete scalar key whose value is present. -/
theorem C9_witness :
    (validateDuplicate db0 "countries" (.vstr "name") (.vstr "Canada")
        none).1 ≠ .error (.badRequest "x") ∧
    (validateDuplicate db0 "countries" (.vstr "name") (.vstr "Canada")
        none).2 = [("countries", [("name", JVal.vstr "Canada")])] :=
  ⟨(C9_validateDuplicate_scalar_key_no_arity_check db0 "countries" "name"
      (.vstr "Canada") none).1 "x",
   (C9_validateDuplicate_scalar_key_no_arity_check db0 "countries" "name"
      (.vstr "Canada") none).2⟩

/-- C5: after a successful update of one field on a previously retrieved
record, getById on the table and id of the record returns a record with the
new value at that field and the old value at every other field. -/
theorem C5_update_then_getById_roundtrip (db : Db) (item : DbItem)
    (f : String) (v : JVal) (tbl : Table) (idv : JVal)
    (htbl : db.lookup item.table = some tbl)
    (hid : (setField item.attrs f v).lookup "id" = some idv) :
    ∃ db2 r2,
      DynamoDbService.update db item [(f, v)] none =
        (⟨item.table, r2⟩, .ok (db2, ⟨item.table, r2⟩)) ∧
      getById db2 item.table idv none = .ok r2 ∧
      r2.lookup f = some v ∧
      ∀ g2, g2 ≠ f → r2.lookup g2 = item.attrs.lookup g2 := by
  refine ⟨dbPut db item.table (setField item.attrs f v),
    setField item.attrs f v, rfl, ?_,
    lookup_setField_self item.attrs f v,
    fun g2 hg => lookup_setField_ne item.attrs f g2 v hg⟩
  exact getById_after_put db item.table (setField item.attrs f v) idv tbl
    htbl (by simpa [getId] using hid)

/-- Witness for C5 overwriting the country code of the sample record. -/
theorem C5_witness :
    ∃ db2 r2,
      DynamoDbService.update db0 itemCanada
          [("countryCode", JVal.vstr "CA")] none =
        (⟨itemCanada.table, r2⟩, .ok (db2, ⟨itemCanada.table, r2⟩)) ∧
      getById db2 itemCanada.table (.vstr "1") none = .ok r2 ∧
      r2.lookup "countryCode" = some (JVal.vstr "CA") ∧
      ∀ g2, g2 ≠ "countryCode" →
        r2.lookup g2 = itemCanada.attrs.lookup g2 :=
  C5_update_then_getById_roundtrip db0 itemCanada "countryCode"
    (JVal.vstr "CA") [recCanada] (.vstr "1") rfl (by decide)

/-- C2: with matching-arity keys and values and a successful search,
validateDuplicate rejects with ConflictError exactly when the induced
equality search finds one or more records and returns unit when it finds
none; the conflict message contains every key/value pair checked, and the
same holds for the single pair of the scalar-keys branch. -/
theorem C2_validateDuplicate_conflict_iff (db : Db) (t : String)
    (tbl : Table) (ks : List JVal) (values : JVal)
    (htbl : db.lookup t = some tbl)
    (hlen : ks.length = jsLength values) :
    ((validateDuplicate db t (.varr ks) values none).1 =
      if tbl.filter (fun r => matchesFilter r (buildOptions ks values)) = []
      then .ok ()
      else .error (.conflict (conflictStrArr t ks values))) ∧
    (∀ i, i < ks.length →
      ∃ pre post, conflictStrArr t ks values =
        pre ++ pairStr (ks.getD i (.vstr "")) (jsIndex values i) ++ post) ∧
    (∀ k : String,
      ((validateDuplicate db t (.vstr k) values none).1 =
        if tbl.filter (fun r => matchesFilter r [(k, values)]) = []
        then .ok ()
        else .error (.conflict (conflictStrScalar t (.vstr k) values))) ∧
      ∃ pre post, conflictStrScalar t (.vstr k) values =
        pre ++ pairStr (.vstr k) values ++ post) := by
  refine ⟨?_, ?_, ?_⟩
  · simp only [validateDuplicate]
    rw [if_neg (fun hc => hc hlen)]
    have hs : search db t (buildOptions ks values) none =
        .ok (if (tbl.filter fun r =>
            matchesFilter r (buildOptions ks values)).length = 0
          then []
          else tbl.filter fun r =>
            matchesFilter r (buildOptions ks values)) := by
      simp only [search, htbl]
    rw [hs]
    by_cases hf :
        tbl.filter (fun r => matchesFilter r (buildOptions ks values)) = []
    · simp [hf]
    · have hl0 : (tbl.filter fun r =>
          matchesFilter r (buildOptions ks values)).length ≠ 0 := by
        simpa [List.length_eq_zero] using hf
      rw [if_neg hl0, if_neg hf]
      simp [Nat.pos_of_ne_zero hl0]
  · intro i hi
    obtain ⟨pre, post, hp⟩ := foldl_append_occurs
      (fun j => pairStr (ks.getD j (.vstr "")) (jsIndex values j)
        ++ (if j < ks.length - 1 then ", " else ""))
      (List.range ks.length) (t ++ " with [ ") i (List.mem_range.mpr hi)
    refine ⟨pre, (if i < ks.length - 1 then ", " else "")
      ++ (post ++ " ] already exists"), ?_⟩
    unfold conflictStrArr
    rw [hp]
    simp [String.append_assoc]
  · intro k
    constructor
    · simp only [validateDuplicate]
      have hs : search db t [(k, values)] none =
          .ok (if (tbl.filter fun r =>
              matchesFilter r [(k, values)]).length = 0
            then []
            else tbl.filter fun r => matchesFilter r [(k, values)]) := by
        simp only [search, htbl]
      rw [hs]
      by_cases hf : tbl.filter (fun r => matchesFilter r [(k, values)]) = []
      · simp [hf]
      · have hl0 : (tbl.filter fun r =>
            matchesFilter r [(k, values)]).length ≠ 0 := by
          simpa [List.length_eq_zero] using hf
        rw [if_neg hl0, if_neg hf]
        simp [Nat.pos_of_ne_zero hl0]
    · refine ⟨t ++ " with ", " already exists", ?_⟩
      simp [conflictStrScalar, pairStr, jsToString, String.append_assoc]

/-- Witness for C2: a concrete two-field duplicate raises the conflict. -/
theorem C2_witness :
    (validateDuplicate db0 "countries"
        (.varr [.vstr "name", .vstr "countryCode"])
        (.varr [.vstr "Canada", .vstr "CAN"]) none).1 =
      .error (.conflict (conflictStrArr "countries"
        [.vstr "name", .vstr "countryCode"]
        (.varr [.vstr "Canada", .vstr "CAN"]))) := by
  have h := C2_validateDuplicate_conflict_iff db0 "countries" [recCanada]
    [.vstr "name", .vstr "countryCode"]
    (.varr [.vstr "Canada", .vstr "CAN"]) rfl (by decide)
  rw [h.1, if_neg (by decide)]
